import Mathlib

/-!
Shallow embedding of the whispersilent real-time transcription pipeline:
src/config.js, src/audioProcessor.js, src/apiService.js,
src/whisperService.js and the TranscriptionPipeline class
(queue worker and per-chunk processing).

Conventions of the embedding:
* machine numbers are Nat/Int (all quantities involved stay far below
  the float53 exactness bound, noted where a JS float comparison is
  replaced by the equivalent exact integer comparison);
* an audio buffer is the list of its signed 16-bit samples, so its byte
  length is twice its list length (frames arrive as 4096-byte slices,
  i.e. 2048 samples);
* fallible JavaScript code is modelled with Except, external effects
  (the recognizer, the HTTP sink, the filesystem) with explicit oracle
  arguments and effect traces.
-/

/-- The configuration object of src/config.js.  sampleRate, channels,
chunkDurationMs, silenceThreshold and silenceDurationMs are read from
environment variables with the defaults recorded here; bufferSize (4096),
retryAttempts (3) and retryDelay (1000) are literal values in config.js. -/
structure Config where
  sampleRate : Nat := 16000
  channels : Nat := 1
  chunkDurationMs : Nat := 3000
  silenceThreshold : Nat := 500
  silenceDurationMs : Nat := 1500
  bufferSize : Nat := 4096
  retryAttempts : Nat := 3
  retryDelay : Nat := 1000

/-- config.js with every field at its default / literal value. -/
def defaultConfig : Config := {}

/-- AudioProcessor.detectSilence (src/audioProcessor.js lines 64-78):
sums Math.abs over the Int16 samples and compares the mean against the
threshold.  For an empty buffer JavaScript computes average = 0/0 = NaN
and NaN < threshold is false, so the empty frame classifies as speech.
For a nonempty buffer the float comparison sum/len < thr agrees with the
exact comparison sum < thr * len: the quotient's rounding error is far
below the distance 1/len between representable exact crossings. -/
def detectSilence (cfg : Config) (samples : List Int) : Bool :=
  if samples.length = 0 then false
  else decide ((samples.map Int.natAbs).sum < cfg.silenceThreshold * samples.length)

/-- Why an utterance buffer was pushed downstream: the silence-timeout
finalization (audioProcessor.js line 43), the max-size cut (line 54) or
the end-of-stream flush (line 82). -/
inductive Reason
  | silenceTimeout
  | maxDuration
  | streamFlush
deriving DecidableEq

/-- The mutable fields of AudioProcessor relevant to segmentation
(src/audioProcessor.js lines 8-11): this.speaking, this.silenceStart
(null modelled as none) and this.audioChunk (as a sample list). -/
structure PState where
  speaking : Bool
  silenceStart : Option Nat
  audioChunk : List Int
deriving DecidableEq

/-- AudioProcessor constructor state: buffer empty, not speaking,
no silence timer. -/
def initPState : PState := ⟨false, none, []⟩

/-- A frame together with the value Date.now() returns while it is
being processed. -/
structure TimedFrame where
  time : Nat
  samples : List Int

/-- The guard audioChunk.length >= this.chunkSize of audioProcessor.js
line 53, with chunkSize = sampleRate * channels * 2 * (chunkDurationMs /
1000) from lines 12-13.  The byte length of the chunk is twice its
sample count; the comparison is cross-multiplied by 1000 so that the
possibly fractional JS chunkSize is compared exactly. -/
def maxChunkHit (cfg : Config) (chunk : List Int) : Bool :=
  decide (1000 * (2 * chunk.length) ≥ cfg.sampleRate * cfg.channels * 2 * cfg.chunkDurationMs)

/-- The silence-timer origin used by audioProcessor.js lines 33-35:
`if (!this.silenceStart) this.silenceStart = Date.now()`.  The JS
truthiness test treats both null and 0 as unset. -/
def silenceTimerStart (st : PState) (t : Nat) : Nat :=
  match st.silenceStart with
  | some s => if s = 0 then t else s
  | none => t

/-- The body of the while loop of AudioProcessor._transform
(src/audioProcessor.js lines 23-58) applied to one sliced frame.
Returns the new state and the optionally pushed utterance buffer,
tagged with the push site. -/
def processFrame (cfg : Config) (st : PState) (fr : TimedFrame) :
    PState × Option (Reason × List Int) :=
  let isSilent := detectSilence cfg fr.samples
  if !isSilent && !st.speaking then
    -- speech start (lines 25-30): speaking = true, silenceStart = null, append
    (⟨true, none, st.audioChunk ++ fr.samples⟩, none)
  else if isSilent && st.speaking then
    -- possible end of speech (lines 31-47)
    let s := silenceTimerStart st fr.time
    let chunk := st.audioChunk ++ fr.samples
    if fr.time - s > cfg.silenceDurationMs then
      -- end of speech confirmed; silenceStart keeps its value
      if chunk.length > 0 then
        (⟨false, some s, []⟩, some (.silenceTimeout, chunk))
      else
        (⟨false, some s, chunk⟩, none)
    else
      (⟨st.speaking, some s, chunk⟩, none)
  else if st.speaking then
    -- speech continues (lines 48-57): append, cut when the max size is reached
    let chunk := st.audioChunk ++ fr.samples
    if maxChunkHit cfg chunk then
      (⟨st.speaking, st.silenceStart, []⟩, some (.maxDuration, chunk))
    else
      (⟨st.speaking, st.silenceStart, chunk⟩, none)
  else
    -- silence while idle: the frame is discarded, nothing is buffered
    (st, none)

/-- AudioProcessor._transform iterated over a sequence of sliced frames,
collecting the pushed utterance buffers in order. -/
def processFrames (cfg : Config) : PState → List TimedFrame → PState × List (Reason × List Int)
  | st, [] => (st, [])
  | st, fr :: rest =>
    let p := processFrame cfg st fr
    let q := processFrames cfg p.1 rest
    (q.1, p.2.toList ++ q.2)

/-- AudioProcessor._flush (src/audioProcessor.js lines 80-86): pushes the
remaining audioChunk when it is nonempty. -/
def flushChunk (st : PState) : List (Reason × List Int) :=
  if st.audioChunk.length > 0 then [(.streamFlush, st.audioChunk)] else []

/-- A complete stream run: process every frame, then flush at
end of stream.  Returns the final state and all pushed utterances. -/
def transformAll (cfg : Config) (frames : List TimedFrame) :
    PState × List (Reason × List Int) :=
  let p := processFrames cfg initPState frames
  (p.1, p.2 ++ flushChunk p.1)

/-- The slicing loop of _transform (audioProcessor.js lines 17-21): the
accumulated byte buffer is cut into bufferSize-byte frames, the
remainder staying buffered.  Included to document that the frames fed
to processFrame always have bufferSize bytes, i.e. 2048 samples. -/
def sliceFramesAux (frameLen : Nat) : Nat → List Int → List (List Int) × List Int
  | 0, buf => ([], buf)
  | fuel + 1, buf =>
    if 0 < frameLen ∧ frameLen ≤ buf.length then
      let p := sliceFramesAux frameLen fuel (buf.drop frameLen)
      (buf.take frameLen :: p.1, p.2)
    else
      ([], buf)

/-- Entry point of the slicing loop; buf.length iterations always
suffice for a positive frame length. -/
def sliceFrames (frameLen : Nat) (buf : List Int) : List (List Int) × List Int :=
  sliceFramesAux frameLen buf.length buf

/-- A sliced frame of constant sample value 1000 arriving at time t:
mean amplitude 1000 is at or above the default threshold 500, so it
classifies as speech. -/
def spFrame (t : Nat) : TimedFrame := ⟨t, List.replicate 2048 (1000 : Int)⟩

/-- A sliced all-zero frame arriving at time t: mean amplitude 0 is
below the default threshold 500, so it classifies as silence. -/
def silFrame (t : Nat) : TimedFrame := ⟨t, List.replicate 2048 (0 : Int)⟩

/- ------------------------------------------------------------------
TranscriptionPipeline queue worker (setup.sh appendix lines 127-190):
processingQueue : Array, isProcessing : Bool, the data handler pushes
and starts processQueue when the worker is idle, and processQueue
shifts and awaits one chunk at a time.  The two event-loop turns that
can change the queue state are modelled as events: the arrival of a
chunk on the data stream, and the completion of the awaited
processAudioChunk call (upon which the while loop either shifts the
next chunk or clears isProcessing).
------------------------------------------------------------------ -/

/-- An utterance buffer handed to the transcription queue. -/
abbrev Chunk := List Int

/-- Pipeline queue state: this.processingQueue, this.isProcessing, the
chunk currently awaited inside processQueue (a list so that its length
bound of one is a proved invariant, not a typing assumption), and the
chunks whose processing has completed, in completion order. -/
structure QState where
  queue : List Chunk
  isProcessing : Bool
  inFlight : List Chunk
  done : List Chunk

/-- TranscriptionPipeline constructor: empty queue, idle worker. -/
def initQState : QState := ⟨[], false, [], []⟩

/-- The two event-loop turns that touch the queue state. -/
inductive QEvent
  | arrive (c : Chunk)
  | complete

/-- One event-loop turn.  arrive c is the data handler (setup.sh
appendix lines 146-151): push c, and when isProcessing is false run the
synchronous prefix of processQueue (guard, isProcessing = true, shift
the head, start awaiting it).  complete is the resolution of the
awaited processAudioChunk inside the while loop of processQueue (lines
180-189): record the finished chunk, then either shift the next chunk
or exit the loop and clear isProcessing.  A complete event with nothing
in flight changes nothing. -/
def qstep (s : QState) : QEvent → QState
  | .arrive c =>
    let q := s.queue ++ [c]
    if s.isProcessing then
      { s with queue := q }
    else
      match q with
      | [] => { s with queue := q }
      | c0 :: rest => { queue := rest, isProcessing := true, inFlight := [c0], done := s.done }
  | .complete =>
    match s.inFlight with
    | [] => s
    | c :: _ =>
      match s.queue with
      | [] => { queue := [], isProcessing := false, inFlight := [], done := s.done ++ [c] }
      | c0 :: rest =>
        { queue := rest, isProcessing := s.isProcessing, inFlight := [c0], done := s.done ++ [c] }

/-- Run of the pipeline from the constructor state over an event list. -/
def runQ (evs : List QEvent) : QState := evs.foldl qstep initQState

/-- The chunks that arrived on the data stream, in arrival order. -/
def arrivals : List QEvent → List Chunk
  | [] => []
  | .arrive c :: rest => c :: arrivals rest
  | .complete :: rest => arrivals rest

/- ------------------------------------------------------------------
ApiService.sendTranscription (src/apiService.js lines 47-84).
------------------------------------------------------------------ -/

/-- Outcome of one sendTranscription call: the returned value (ok none
models the undefined JS return when the loop body never runs, which
needs retryAttempts = 0), the delays waited between attempts, and the
number of sink attempts made. -/
structure SendOutcome where
  result : Except String (Option String)
  delays : List Nat
  attempts : Nat

/-- The retry loop of sendTranscription (apiService.js lines 61-79).
attempt is the loop index, remaining = retryAttempts - attempt the
iterations left; the sink oracle gives each attempt's outcome.  On
failure of a non-last attempt the code waits retryDelay * (attempt + 1)
milliseconds (line 72) and retries; on failure of the last attempt it
rethrows. -/
def sendLoop (base : Nat) (sink : Nat → Except String String) :
    Nat → Nat → SendOutcome
  | _, 0 => ⟨.ok none, [], 0⟩
  | attempt, remaining + 1 =>
    match sink attempt with
    | .ok r => ⟨.ok (some r), [], 1⟩
    | .error e =>
      if remaining = 0 then
        ⟨.error e, [], 1⟩
      else
        let res := sendLoop base sink (attempt + 1) remaining
        ⟨res.result, base * (attempt + 1) :: res.delays, res.attempts + 1⟩

/-- ApiService.sendTranscription entry point: start at attempt 0 with
config.api.retryAttempts iterations. -/
def sendTranscription (cfg : Config) (sink : Nat → Except String String) : SendOutcome :=
  sendLoop cfg.retryDelay sink 0 cfg.retryAttempts

/- ------------------------------------------------------------------
WhisperService.transcribe (src/whisperService.js lines 38-80).
------------------------------------------------------------------ -/

/-- Filesystem effects performed by WhisperService.transcribe. -/
inductive FsOp
  | create (p : String)
  | unlink (p : String)
deriving DecidableEq

/-- The temp file name audio_<Date.now()>_<counter>.wav of
whisperService.js line 39. -/
def wavFileName (now counter : Nat) : String :=
  "audio_" ++ toString now ++ "_" ++ toString counter ++ ".wav"

/-- path.join(config.processing.tempDir, tempFileName), line 40. -/
def tempFilePath (tempDir : String) (now counter : Nat) : String :=
  tempDir ++ "/" ++ wavFileName now counter

/-- JavaScript String.prototype.trim: strip whitespace from both ends.
Modelled directly on character lists so that it evaluates by kernel
reduction (Lean's own String.trim is defined by well-founded recursion
and does not). -/
def jsTrim (s : String) : String :=
  String.mk (((s.toList.dropWhile Char.isWhitespace).reverse.dropWhile
    Char.isWhitespace).reverse)

/-- Outcomes of the two awaited external operations inside transcribe:
saveAsWav (resolve or reject) and this.whisper.transcribe (text or
throw). -/
structure WhisperOracle where
  save : Except String Unit
  whisperText : Except String String

/-- WhisperService.transcribe (whisperService.js lines 38-80): save the
buffer as a temp WAV, transcribe it, return the trimmed text (null when
empty), rethrow engine errors, and in the finally block always unlink
the temp file (saveAsWav may have created the file even on its own
failure path; the unlink of a missing file errors and is caught with a
warning, leaving the filesystem unchanged).  Returns the call result
and the ordered filesystem effect trace. -/
def transcribe (tempDir : String) (now counter : Nat) (o : WhisperOracle) :
    Except String (Option String) × List FsOp :=
  let p := tempFilePath tempDir now counter
  let result : Except String (Option String) :=
    match o.save with
    | .error e => .error e
    | .ok _ =>
      match o.whisperText with
      | .error e => .error e
      | .ok t => if jsTrim t ≠ "" then .ok (some (jsTrim t)) else .ok none
  (result, [.create p, .unlink p])

/-- Effect of a filesystem trace on the set of existing files (as a
list): create appends the path, unlink removes every occurrence (an
unlink of a missing path is a no-op at this level, matching the caught
unlink error). -/
def applyOps (files : List String) : List FsOp → List String
  | [] => files
  | .create p :: rest => applyOps (files ++ [p]) rest
  | .unlink p :: rest => applyOps (files.filter (fun q => q ≠ p)) rest

/- ------------------------------------------------------------------
TranscriptionPipeline.processAudioChunk (setup.sh appendix
lines 192-216).
------------------------------------------------------------------ -/

/-- Outcomes of the external calls made while processing one chunk: the
whisperService.transcribe result (same shape as the transcribe model
above) and the HTTP sink outcome per delivery attempt. -/
structure ChunkOracle where
  transcribeResult : Except String (Option String)
  sink : Nat → Except String String

/-- Everything externally visible that processAudioChunk does with one
chunk: the transcriptions passed onward to apiService.sendTranscription,
the successful sink responses received back, the number of sink
attempts made, and whether the error path (logger.error) ran.  The
function itself always returns normally: its outer catch swallows
every error so the queue worker advances. -/
structure ChunkEffects where
  sent : List String
  delivered : List String
  apiAttempts : Nat
  errorLogged : Bool
deriving DecidableEq

/-- TranscriptionPipeline.processAudioChunk (setup.sh appendix lines
192-216): transcribe; when the transcription is truthy and its trim is
nonempty, send it to the API; otherwise only log.  All errors (engine
or delivery) are caught and logged; nothing further is retained. -/
def processAudioChunk (cfg : Config) (o : ChunkOracle) : ChunkEffects :=
  match o.transcribeResult with
  | .error _ => ⟨[], [], 0, true⟩
  | .ok none => ⟨[], [], 0, false⟩
  | .ok (some t) =>
    if jsTrim t ≠ "" then
      let out := sendTranscription cfg o.sink
      match out.result with
      | .ok (some r) => ⟨[t], [r], out.attempts, false⟩
      | .ok none => ⟨[t], [], out.attempts, false⟩
      | .error _ => ⟨[t], [], out.attempts, true⟩
    else ⟨[], [], 0, false⟩

/- ==================================================================
Helper lemmas.
================================================================== -/

/-- detectSilence on a constant nonempty frame compares n * |v| with
threshold * n. -/
theorem detectSilence_replicate (cfg : Config) (n : Nat) (v : Int) (hn : n ≠ 0) :
    detectSilence cfg (List.replicate n v) =
      decide (n * v.natAbs < cfg.silenceThreshold * n) := by
  simp [detectSilence, hn, List.sum_replicate, smul_eq_mul]

/-- A constant-1000 sliced frame classifies as speech under the default
threshold 500. -/
theorem detectSilence_sp (t : Nat) :
    detectSilence defaultConfig (spFrame t).samples = false := by
  show detectSilence defaultConfig (List.replicate 2048 (1000 : Int)) = false
  rw [detectSilence_replicate defaultConfig 2048 1000 (by norm_num)]
  decide

/-- An all-zero sliced frame classifies as silence under the default
threshold 500. -/
theorem detectSilence_sil (t : Nat) :
    detectSilence defaultConfig (silFrame t).samples = true := by
  show detectSilence defaultConfig (List.replicate 2048 (0 : Int)) = true
  rw [detectSilence_replicate defaultConfig 2048 0 (by norm_num)]
  decide

/-- processFrame, speech frame while idle: speech starts (lines 25-30). -/
theorem processFrame_speech_start (cfg : Config) (st : PState) (fr : TimedFrame)
    (hsp : st.speaking = false) (hs : detectSilence cfg fr.samples = false) :
    processFrame cfg st fr = (⟨true, none, st.audioChunk ++ fr.samples⟩, none) := by
  simp [processFrame, hs, hsp]

/-- processFrame, silent frame while idle: the frame is discarded. -/
theorem processFrame_silent_idle (cfg : Config) (st : PState) (fr : TimedFrame)
    (hsp : st.speaking = false) (hs : detectSilence cfg fr.samples = true) :
    processFrame cfg st fr = (st, none) := by
  simp [processFrame, hs, hsp]

/-- processFrame, speech frame while speaking: append, cut at max size
(lines 48-57). -/
theorem processFrame_speech_cont (cfg : Config) (st : PState) (fr : TimedFrame)
    (hsp : st.speaking = true) (hs : detectSilence cfg fr.samples = false) :
    processFrame cfg st fr =
      (if maxChunkHit cfg (st.audioChunk ++ fr.samples) then
        (⟨true, st.silenceStart, []⟩, some (.maxDuration, st.audioChunk ++ fr.samples))
      else
        (⟨true, st.silenceStart, st.audioChunk ++ fr.samples⟩, none)) := by
  simp [processFrame, hs, hsp]

/-- processFrames distributes over list append. -/
theorem processFrames_append (cfg : Config) (st : PState) (xs ys : List TimedFrame) :
    processFrames cfg st (xs ++ ys) =
      ((processFrames cfg (processFrames cfg st xs).1 ys).1,
       (processFrames cfg st xs).2 ++ (processFrames cfg (processFrames cfg st xs).1 ys).2) := by
  induction xs generalizing st with
  | nil => simp [processFrames]
  | cons fr rest ih => simp [processFrames, ih, List.append_assoc]

/-- An all-silence frame sequence leaves the assembler in its initial
state and pushes nothing. -/
theorem processFrames_all_silent (cfg : Config) (frames : List TimedFrame)
    (h : ∀ fr ∈ frames, detectSilence cfg fr.samples = true) :
    processFrames cfg initPState frames = (initPState, []) := by
  induction frames with
  | nil => rfl
  | cons fr rest ih =>
    have h1 := processFrame_silent_idle cfg initPState fr rfl (h fr (by simp))
    have h2 := ih (fun f hf => h f (by simp [hf]))
    simp [processFrames, h1, h2]

/- ==================================================================
Claim theorems.
================================================================== -/

/-- C10: detectSilence is total and deterministic; on the empty buffer
it returns false (JavaScript computes mean = 0/0 = NaN and the NaN
comparison with the threshold is false, classifying the empty frame as
speech); on a nonempty buffer it returns true exactly when the mean
absolute 16-bit sample amplitude is strictly below the configured
silence threshold. -/
theorem C10_detectSilence_total (cfg : Config) (buf : List Int) :
    (buf = [] → detectSilence cfg buf = false) ∧
    (buf ≠ [] → (detectSilence cfg buf = true ↔
      ((buf.map Int.natAbs).sum : ℚ) / (buf.length : ℚ) < (cfg.silenceThreshold : ℚ))) := by
  constructor
  · rintro rfl; rfl
  · intro hne
    have hlen : 0 < buf.length := List.length_pos.mpr hne
    have hlenq : (0 : ℚ) < (buf.length : ℚ) := by exact_mod_cast hlen
    rw [detectSilence, if_neg (by omega), decide_eq_true_iff, div_lt_iff₀ hlenq]
    exact_mod_cast Iff.rfl

/-- C10 witness: the empty buffer classifies as speech, and a one-sample
buffer of amplitude 400 classifies as silence under the default
threshold 500. -/
theorem C10_detectSilence_total_witness :
    detectSilence defaultConfig [] = false ∧
    detectSilence defaultConfig [(400 : Int)] = true := by
  constructor
  · exact (C10_detectSilence_total defaultConfig []).1 rfl
  · refine ((C10_detectSilence_total defaultConfig [(400 : Int)]).2 (by simp)).mpr ?_
    norm_num [defaultConfig]

/-- C9: every call to WhisperService.transcribe ends its filesystem
trace with the unlink of the temp WAV file it names (the finally block),
in every oracle outcome — success, empty text, recognizer exception or
save failure — so the temp file is absent from the filesystem once the
call returns. -/
theorem C9_temp_file_removed (tempDir : String) (now counter : Nat)
    (o : WhisperOracle) (fs₀ : List String) :
    (transcribe tempDir now counter o).2.getLast? =
      some (.unlink (tempFilePath tempDir now counter)) ∧
    tempFilePath tempDir now counter ∉ applyOps fs₀ (transcribe tempDir now counter o).2 := by
  constructor
  · rfl
  · show tempFilePath tempDir now counter ∉
      applyOps fs₀ [.create (tempFilePath tempDir now counter),
                    .unlink (tempFilePath tempDir now counter)]
    simp [applyOps, List.mem_filter]

/-- C8: an input frame sequence in which every frame classifies as
silence yields zero utterances: the state never leaves Idle, no frame
is buffered, and the end-of-stream flush emits nothing. -/
theorem C8_all_silence_no_output (cfg : Config) (frames : List TimedFrame)
    (h : ∀ fr ∈ frames, detectSilence cfg fr.samples = true) :
    transformAll cfg frames = (initPState, []) := by
  have h2 := processFrames_all_silent cfg frames h
  simp only [transformAll]
  rw [h2]
  simp [flushChunk, initPState]

/-- C8 witness: two all-zero frames produce no output. -/
theorem C8_all_silence_no_output_witness :
    transformAll defaultConfig [silFrame 0, silFrame 100] = (initPState, []) := by
  apply C8_all_silence_no_output
  intro fr hfr
  simp only [List.mem_cons, List.not_mem_nil, or_false] at hfr
  rcases hfr with h | h
  · rw [h]; exact detectSilence_sil 0
  · rw [h]; exact detectSilence_sil 100

/-- Queue-worker invariant: an idle worker has nothing in flight, at
most one chunk is ever in flight, and the chunks partition into
completed, in flight and queued, in arrival order. -/
def QInv (s : QState) (as : List Chunk) : Prop :=
  (s.isProcessing = false → s.inFlight = []) ∧
  s.inFlight.length ≤ 1 ∧
  s.done ++ s.inFlight ++ s.queue = as

/-- Each event-loop turn preserves the queue-worker invariant. -/
theorem qstep_inv (s : QState) (as : List Chunk) (e : QEvent) (h : QInv s as) :
    QInv (qstep s e) (as ++ arrivals [e]) := by
  obtain ⟨hidle, hlen, hpart⟩ := h
  cases e with
  | arrive c =>
    show QInv (qstep s (.arrive c)) (as ++ [c])
    by_cases hp : s.isProcessing
    · simp only [qstep, if_pos hp]
      refine ⟨fun hf => absurd (hf ▸ hp) (by simp), hlen, ?_⟩
      rw [← hpart]
      simp [List.append_assoc]
    · have hbp : s.isProcessing = false := by
        cases hb : s.isProcessing
        · rfl
        · exact absurd hb hp
      have hfl : s.inFlight = [] := hidle hbp
      simp only [qstep, if_neg hp]
      cases hq : s.queue with
      | nil =>
        simp only [hq, List.nil_append]
        refine ⟨fun hf => by simp at hf, by simp, ?_⟩
        rw [← hpart, hq, hfl]
        simp
      | cons c0 rest =>
        simp only [hq, List.cons_append]
        refine ⟨fun hf => by simp at hf, by simp, ?_⟩
        rw [← hpart, hq, hfl]
        simp
  | complete =>
    show QInv (qstep s .complete) (as ++ [])
    rw [List.append_nil]
    cases hf : s.inFlight with
    | nil => simpa [qstep, hf] using ⟨hidle, hlen, hpart⟩
    | cons c tl =>
      have htl : tl = [] := by
        have h2 := hf ▸ hlen
        simpa using h2
      subst htl
      have hpt : s.isProcessing = true := by
        cases hb : s.isProcessing
        · exact absurd (hidle hb) (by rw [hf]; simp)
        · rfl
      cases hq : s.queue with
      | nil =>
        simp only [qstep, hf, hq]
        refine ⟨fun _ => rfl, by simp, ?_⟩
        rw [← hpart, hf, hq]
        simp
      | cons c0 rest =>
        simp only [qstep, hf, hq]
        refine ⟨fun hfp => absurd (hfp ▸ hpt) (by simp), by simp, ?_⟩
        rw [← hpart, hf, hq]
        simp

/-- arrivals distributes over event-list append. -/
theorem arrivals_append (xs ys : List QEvent) :
    arrivals (xs ++ ys) = arrivals xs ++ arrivals ys := by
  induction xs with
  | nil => rfl
  | cons e rest ih => cases e <;> simp [arrivals, ih]

/-- The invariant carries through any run continuation. -/
theorem foldl_qstep_inv (evs : List QEvent) :
    ∀ (s : QState) (as : List Chunk), QInv s as →
      QInv (evs.foldl qstep s) (as ++ arrivals evs) := by
  induction evs with
  | nil => intro s as h; simpa [arrivals] using h
  | cons e rest ih =>
    intro s as h
    have h1 := qstep_inv s as e h
    have h2 := ih (qstep s e) (as ++ arrivals [e]) h1
    rw [List.foldl_cons]
    rw [show arrivals (e :: rest) = arrivals [e] ++ arrivals rest from arrivals_append [e] rest]
    rw [← List.append_assoc]
    exact h2

/-- The invariant holds of every reachable queue state. -/
theorem runQ_inv (evs : List QEvent) : QInv (runQ evs) (arrivals evs) := by
  have h0 : QInv initQState [] := ⟨fun _ => rfl, by simp [initQState], by simp [initQState]⟩
  simpa using foldl_qstep_inv evs initQState [] h0

/-- C1: the transcription queue is consumed strictly FIFO by a single
worker.  In every reachable state at most one chunk is in flight (so
processing of utterance n completes before n+1 starts and no two engine
calls overlap), an idle worker has nothing in flight, and the completed
chunks followed by the in-flight chunk and the still-queued chunks are
exactly the enqueued chunks in arrival order — hence results are
produced in enqueue order. -/
theorem C1_queue_fifo_single_worker (evs : List QEvent) :
    (runQ evs).inFlight.length ≤ 1 ∧
    ((runQ evs).isProcessing = false → (runQ evs).inFlight = []) ∧
    (runQ evs).done ++ (runQ evs).inFlight ++ (runQ evs).queue = arrivals evs := by
  obtain ⟨h1, h2, h3⟩ := runQ_inv evs
  exact ⟨h2, h1, h3⟩

/-- A run of n+1 consecutive chunk arrivals with the worker never
completing: the first arrival starts the worker, the rest pile up. -/
theorem runQ_replicate_arrive (c : Chunk) :
    ∀ n : Nat, runQ (List.replicate (n + 1) (.arrive c)) =
      ⟨List.replicate n c, true, [c], []⟩ := by
  intro n
  induction n with
  | zero => rfl
  | succ n ih =>
    have hsplit : List.replicate (n + 1 + 1) (QEvent.arrive c) =
        List.replicate (n + 1) (QEvent.arrive c) ++ [QEvent.arrive c] :=
      List.replicate_succ' (n + 1) (QEvent.arrive c)
    rw [runQ, hsplit, List.foldl_append, ← runQ, ih]
    simp [qstep, List.replicate_succ']

/-- C5 counterexample: there is no capacity that the number of queued,
unconsumed utterances respects over all runs — after cap + 2 arrivals
with a slow worker, cap + 1 chunks sit in the queue. -/
theorem C5_counterexample :
    ¬ ∃ cap : Nat, ∀ evs : List QEvent, (runQ evs).queue.length ≤ cap := by
  rintro ⟨cap, h⟩
  have hc := h (List.replicate (cap + 1 + 1) (.arrive [0]))
  rw [runQ_replicate_arrive [0] (cap + 1)] at hc
  simp at hc

/-- C5 amended: the processing queue is an unbounded array — its
backlog exceeds any proposed capacity on some run — and nothing is ever
shed: in every reachable state the enqueued chunks are exactly the
completed ones, the in-flight one and the queued ones, so no utterance
is dropped (there is no overflow drop at all). -/
theorem C5_amended_unbounded_queue_no_drop :
    (∀ cap : Nat, ∃ evs : List QEvent, cap < (runQ evs).queue.length) ∧
    (∀ evs : List QEvent,
      (runQ evs).done ++ (runQ evs).inFlight ++ (runQ evs).queue = arrivals evs) := by
  constructor
  · intro cap
    refine ⟨List.replicate (cap + 1 + 1) (.arrive [0]), ?_⟩
    rw [runQ_replicate_arrive [0] (cap + 1)]
    simp
  · intro evs
    exact (runQ_inv evs).2.2

/-- C2 counterexample: a chunk whose recognizer output is empty (the
transcribe call resolves to null) produces no result at all — nothing
is sent onward, no empty-text result with an error annotation is
emitted — contradicting that exactly one result is passed onward for
every queued chunk. -/
theorem C2_counterexample :
    (processAudioChunk defaultConfig ⟨.ok none, fun _ => .ok "ok"⟩).sent = [] ∧
    (processAudioChunk defaultConfig ⟨.ok none, fun _ => .ok "ok"⟩).sent.length ≠ 1 ∧
    (processAudioChunk defaultConfig ⟨.error "engine timeout", fun _ => .ok "ok"⟩).sent = [] := by
  refine ⟨rfl, by decide, rfl⟩

/-- C2 amended: at most one result is passed onward per chunk, and one
is passed onward exactly when the recognizer succeeded with nonempty
trimmed text; empty and failed transcriptions are logged and dropped
(no empty-text result is forwarded), while processAudioChunk always
returns normally so the worker advances. -/
theorem C2_amended_only_nonempty_forwarded (cfg : Config) (o : ChunkOracle) :
    (processAudioChunk cfg o).sent.length ≤ 1 ∧
    ((processAudioChunk cfg o).sent ≠ [] ↔
      ∃ t, o.transcribeResult = .ok (some t) ∧ jsTrim t ≠ "") := by
  obtain ⟨tr, sink⟩ := o
  cases tr with
  | error e => simp [processAudioChunk]
  | ok ot =>
    cases ot with
    | none => simp [processAudioChunk]
    | some t =>
      by_cases ht : jsTrim t = ""
      · simp [processAudioChunk, ht]
      · rcases hr : (sendTranscription cfg sink).result with e | or
        · simp [processAudioChunk, ht, hr]
        · rcases or with _ | r <;> simp [processAudioChunk, ht, hr]

/-- Retry loop, success after k failures: when each of the first k
attempts (offset by a) fails and attempt a + k succeeds, the loop makes
k + 1 attempts and waits base * (a + i + 1) before retry i. -/
theorem sendLoop_success (base : Nat) (sink : Nat → Except String String) (r : String)
    (k : Nat) :
    ∀ (a remaining : Nat), k < remaining →
      (∀ i, i < k → ∃ e, sink (a + i) = .error e) →
      sink (a + k) = .ok r →
      sendLoop base sink a remaining =
        ⟨.ok (some r), (List.range k).map (fun i => base * (a + i + 1)), k + 1⟩ := by
  induction k with
  | zero =>
    intro a remaining hlt _ hok
    obtain ⟨rem, rfl⟩ : ∃ m, remaining = m + 1 := ⟨remaining - 1, by omega⟩
    rw [show a + 0 = a from rfl] at hok
    simp [sendLoop, hok]
  | succ k ih =>
    intro a remaining hlt herr hok
    obtain ⟨rem, rfl⟩ : ∃ m, remaining = m + 1 := ⟨remaining - 1, by omega⟩
    obtain ⟨e, he⟩ := herr 0 (by omega)
    rw [show a + 0 = a from rfl] at he
    have hrem : rem ≠ 0 := by omega
    have hrec := ih (a + 1) rem (by omega)
      (fun i hi => by
        obtain ⟨e2, he2⟩ := herr (i + 1) (by omega)
        exact ⟨e2, by rwa [show a + 1 + i = a + (i + 1) from by omega]⟩)
      (by rwa [show a + 1 + k = a + (k + 1) from by omega])
    simp only [sendLoop, he, if_neg hrem, hrec, SendOutcome.mk.injEq]
    refine ⟨trivial, ?_, trivial⟩
    rw [List.range_succ_eq_map, List.map_cons, List.map_map]
    congr 1
    apply List.map_congr_left
    intro i _
    have hadd : a + 1 + i + 1 = a + (i + 1) + 1 := by omega
    simp [Function.comp, hadd]

/-- C6 counterexample: with max attempts 5 and base delay 1000 (the
spec's Scenario D configuration), a sink failing three times then
succeeding sees retry delays 1000, 2000, 3000 ms — the delay before
attempt 3 is 3000, not the exponential 1000 * 2 ^ 2 = 4000. -/
theorem C6_counterexample :
    (sendTranscription { retryAttempts := 5, retryDelay := 1000 }
        (fun n => if n < 3 then .error "http 500" else .ok "accepted")).delays =
      [1000, 2000, 3000] ∧
    1000 * 2 ^ 2 = 4000 ∧ (3000 : Nat) ≠ 4000 := by
  refine ⟨by decide, by norm_num, by norm_num⟩

/-- C6 amended: the retry delay before attempt k + 1 is linear, base *
(k + 1), with no cap and no jitter; when the sink fails k < maxAttempts
times and then succeeds, sendTranscription returns the sink's response
after exactly k + 1 attempts with that linear delay sequence. -/
theorem C6_amended_linear_backoff (cfg : Config) (sink : Nat → Except String String)
    (k : Nat) (r : String) (hk : k < cfg.retryAttempts)
    (herr : ∀ i, i < k → ∃ e, sink i = .error e) (hok : sink k = .ok r) :
    sendTranscription cfg sink =
      ⟨.ok (some r), (List.range k).map (fun i => cfg.retryDelay * (i + 1)), k + 1⟩ := by
  have h := sendLoop_success cfg.retryDelay sink r k 0 cfg.retryAttempts hk
    (fun i hi => by simpa using herr i hi) (by simpa using hok)
  simpa [sendTranscription] using h

/-- C6 amended witness: Scenario D concretely — five allowed attempts,
three failures then success, four attempts total, delays 1000, 2000,
3000. -/
theorem C6_amended_linear_backoff_witness :
    sendTranscription { retryAttempts := 5, retryDelay := 1000 }
        (fun n => if n < 4 then .error "http 500" else .ok "accepted") =
      ⟨.ok (some "accepted"), [1000, 2000, 3000, 4000], 5⟩ := by
  rw [C6_amended_linear_backoff { retryAttempts := 5, retryDelay := 1000 }
    (fun n => if n < 4 then .error "http 500" else .ok "accepted") 4 "accepted"
    (by norm_num)
    (fun i hi => ⟨"http 500", by simp [hi]⟩)
    (by norm_num)]
  rfl

/-- One failing non-last retry-loop iteration, with the number of
remaining iterations kept symbolic so no inner call unfolds. -/
theorem sendLoop_step_error (base : Nat) (sink : Nat → Except String String)
    (a m : Nat) (e : String) (he : sink a = .error e) (hm : m ≠ 0) :
    sendLoop base sink a (m + 1) =
      ⟨(sendLoop base sink (a + 1) m).result,
       base * (a + 1) :: (sendLoop base sink (a + 1) m).delays,
       (sendLoop base sink (a + 1) m).attempts + 1⟩ := by
  simp only [sendLoop, he, if_neg hm]

/-- Retry loop, everything fails: with at least one allowed attempt the
loop makes exactly `remaining` attempts, waits the linear delays between
them, and finally returns the last attempt's error. -/
theorem sendLoop_allfail (base : Nat) (sink : Nat → Except String String)
    (e : Nat → String) (hfail : ∀ i, sink i = .error (e i)) :
    ∀ (remaining a : Nat), 1 ≤ remaining →
      sendLoop base sink a remaining =
        ⟨.error (e (a + remaining - 1)),
         (List.range (remaining - 1)).map (fun i => base * (a + i + 1)),
         remaining⟩ := by
  intro remaining
  induction remaining with
  | zero => intro a h; omega
  | succ rem ih =>
    intro a _
    cases rem with
    | zero => simp [sendLoop, hfail a]
    | succ m =>
      rw [sendLoop_step_error base sink a (m + 1) (e a) (hfail a) (by omega),
        ih (a + 1) (by omega)]
      have hidx : a + 1 + (m + 1) - 1 = a + (m + 1 + 1) - 1 := by omega
      have hdel : base * (a + 1) ::
          (List.range m).map (fun i => base * (a + 1 + i + 1)) =
          (List.range (m + 1)).map (fun i => base * (a + i + 1)) := by
        rw [List.range_succ_eq_map, List.map_cons, List.map_map]
        congr 1
        apply List.map_congr_left
        intro i _
        have hadd : a + 1 + i + 1 = a + (i + 1) + 1 := by omega
        simp [Function.comp, hadd]
      simp [hidx, hdel]

/-- C7 counterexample: default configuration (three attempts), a sink
that always fails and a nonempty transcription.  Processing makes the
three attempts, delivers nothing, logs the error, and the complete
externally visible effect record retains the transcript nowhere — it is
discarded, not marked abandoned nor handed to any pending store (none
exists in the code). -/
theorem C7_counterexample :
    processAudioChunk defaultConfig ⟨.ok (some "hello"), fun _ => .error "http 500"⟩ =
      ⟨["hello"], [], 3, true⟩ ∧
    (processAudioChunk defaultConfig
        ⟨.ok (some "hello"), fun _ => .error "http 500"⟩).delivered.length ≠ 1 := by
  refine ⟨by decide, by decide⟩

/-- C7 amended: when every send fails, sendTranscription makes exactly
the configured number of attempts and then propagates the last error;
the pipeline worker catches it and merely logs — the transcript was
passed to the delivery layer once but nothing is delivered or retained
afterwards. -/
theorem C7_amended_exhausted_retries_discard (cfg : Config) (t : String)
    (e : Nat → String) (o : ChunkOracle)
    (htr : o.transcribeResult = .ok (some t)) (ht : jsTrim t ≠ "")
    (hsink : ∀ i, o.sink i = .error (e i)) (hatt : 1 ≤ cfg.retryAttempts) :
    sendTranscription cfg o.sink =
      ⟨.error (e (cfg.retryAttempts - 1)),
       (List.range (cfg.retryAttempts - 1)).map (fun i => cfg.retryDelay * (i + 1)),
       cfg.retryAttempts⟩ ∧
    processAudioChunk cfg o = ⟨[t], [], cfg.retryAttempts, true⟩ := by
  have hsend : sendTranscription cfg o.sink =
      ⟨.error (e (cfg.retryAttempts - 1)),
       (List.range (cfg.retryAttempts - 1)).map (fun i => cfg.retryDelay * (i + 1)),
       cfg.retryAttempts⟩ := by
    have h := sendLoop_allfail cfg.retryDelay o.sink e hsink cfg.retryAttempts 0 hatt
    simpa [sendTranscription] using h
  refine ⟨hsend, ?_⟩
  obtain ⟨tr, sink⟩ := o
  simp only at htr hsink hsend
  subst htr
  simp [processAudioChunk, ht, hsend]

/-- C7 amended witness: three failing attempts on the default
configuration, result discarded. -/
theorem C7_amended_exhausted_retries_discard_witness :
    processAudioChunk defaultConfig ⟨.ok (some "ola"), fun _ => .error "timeout"⟩ =
      ⟨["ola"], [], 3, true⟩ := by
  have h := C7_amended_exhausted_retries_discard defaultConfig "ola" (fun _ => "timeout")
    ⟨.ok (some "ola"), fun _ => .error "timeout"⟩ rfl (by decide) (fun i => rfl) (by decide)
  exact h.2

/-- A constant-1000 sliced frame buffer classifies as speech. -/
theorem ds_rep_speech :
    detectSilence defaultConfig (List.replicate 2048 (1000 : Int)) = false := by
  rw [detectSilence_replicate defaultConfig 2048 1000 (by norm_num)]
  decide

/-- An all-zero sliced frame buffer classifies as silence. -/
theorem ds_rep_sil :
    detectSilence defaultConfig (List.replicate 2048 (0 : Int)) = true := by
  rw [detectSilence_replicate defaultConfig 2048 0 (by norm_num)]
  decide


/-- processFrame, silent frame while speaking with no timer set: the
timer starts at this frame's time and nothing is emitted (the elapsed
silence is 0, never above the configured duration). -/
theorem processFrame_silent_timer_set (cfg : Config) (st : PState) (fr : TimedFrame)
    (hsp : st.speaking = true) (hs : detectSilence cfg fr.samples = true)
    (hnone : st.silenceStart = none) :
    processFrame cfg st fr = (⟨true, some fr.time, st.audioChunk ++ fr.samples⟩, none) := by
  simp [processFrame, hs, hsp, silenceTimerStart, hnone]

/-- processFrame, silent frame while speaking with the timer running
(nonzero origin) and the timeout not yet exceeded: append and wait. -/
theorem processFrame_silent_wait (cfg : Config) (st : PState) (fr : TimedFrame) (s : Nat)
    (hsp : st.speaking = true) (hs : detectSilence cfg fr.samples = true)
    (hss : st.silenceStart = some s) (hs0 : s ≠ 0)
    (hle : ¬ (fr.time - s > cfg.silenceDurationMs)) :
    processFrame cfg st fr = (⟨true, some s, st.audioChunk ++ fr.samples⟩, none) := by
  simp [processFrame, hs, hsp, silenceTimerStart, hss, hs0, hle]

/-- processFrame, silent frame while speaking with the timer running
(nonzero origin) and the timeout exceeded: finalize with reason
silence-timeout; the timer origin is kept. -/
theorem processFrame_silent_timeout (cfg : Config) (st : PState) (fr : TimedFrame) (s : Nat)
    (hsp : st.speaking = true) (hs : detectSilence cfg fr.samples = true)
    (hss : st.silenceStart = some s) (hs0 : s ≠ 0)
    (hgt : fr.time - s > cfg.silenceDurationMs)
    (hne : st.audioChunk ++ fr.samples ≠ []) :
    processFrame cfg st fr =
      (⟨false, some s, []⟩, some (.silenceTimeout, st.audioChunk ++ fr.samples)) := by
  simp [processFrame, hs, hsp, silenceTimerStart, hss, hs0, hgt]
  intro hac
  simpa [hac] using hne

/-- processFrame, speech frame while speaking, max size not reached:
append, keep the silence timer untouched. -/
theorem processFrame_speech_append (cfg : Config) (st : PState) (fr : TimedFrame)
    (hsp : st.speaking = true) (hs : detectSilence cfg fr.samples = false)
    (hm : maxChunkHit cfg (st.audioChunk ++ fr.samples) = false) :
    processFrame cfg st fr = (⟨true, st.silenceStart, st.audioChunk ++ fr.samples⟩, none) := by
  simp [processFrame, hs, hsp, hm]

/-- processFrame, speech frame while speaking, max size reached: push
the chunk with reason max-duration, keep the silence timer untouched. -/
theorem processFrame_speech_cut (cfg : Config) (st : PState) (fr : TimedFrame)
    (hsp : st.speaking = true) (hs : detectSilence cfg fr.samples = false)
    (hm : maxChunkHit cfg (st.audioChunk ++ fr.samples) = true) :
    processFrame cfg st fr =
      (⟨true, st.silenceStart, []⟩, some (.maxDuration, st.audioChunk ++ fr.samples)) := by
  simp [processFrame, hs, hsp, hm]

/-- C3 counterexample: frames speech at 0 ms, silence at 10 ms, speech
at 2000 ms, silence at 2001 ms, with the default 1500 ms silence
duration.  After three frames nothing has been emitted, yet the single
silent frame at 2001 ms — only 1 ms after speech resumed, far below the
1500 ms requirement of sustained silence — finalizes the utterance with
reason silence-timeout, because the silence timer started at 10 ms is
never reset when speech resumes. -/
theorem C3_counterexample :
    (processFrames defaultConfig initPState
        [spFrame 0, silFrame 10, spFrame 2000]).2 = [] ∧
    (processFrames defaultConfig initPState
        [spFrame 0, silFrame 10, spFrame 2000, silFrame 2001]).2.map Prod.fst =
      [Reason.silenceTimeout] ∧
    detectSilence defaultConfig (spFrame 2000).samples = false ∧
    (silFrame 2001).time - (spFrame 2000).time = 1 ∧
    ¬ ((silFrame 2001).time - (spFrame 2000).time > defaultConfig.silenceDurationMs) := by
  have h1 : processFrame defaultConfig initPState (spFrame 0) =
      (⟨true, none, List.replicate 2048 (1000 : Int)⟩, none) := by
    rw [processFrame_speech_start defaultConfig initPState (spFrame 0) rfl
      (detectSilence_sp 0)]
    rfl
  have h2 : processFrame defaultConfig ⟨true, none, List.replicate 2048 (1000 : Int)⟩
      (silFrame 10) =
      (⟨true, some 10, List.replicate 2048 (1000 : Int) ++ List.replicate 2048 (0 : Int)⟩,
       none) := by
    rw [processFrame_silent_timer_set defaultConfig
      ⟨true, none, List.replicate 2048 (1000 : Int)⟩ (silFrame 10) rfl
      (detectSilence_sil 10) rfl]
    rfl
  have hm3 : maxChunkHit defaultConfig
      ((List.replicate 2048 (1000 : Int) ++ List.replicate 2048 (0 : Int)) ++
        (spFrame 2000).samples) = false := by
    simp only [spFrame, maxChunkHit, List.length_append, List.length_replicate]
    decide
  have h3 : processFrame defaultConfig
      ⟨true, some 10, List.replicate 2048 (1000 : Int) ++ List.replicate 2048 (0 : Int)⟩
      (spFrame 2000) =
      (⟨true, some 10, List.replicate 2048 (1000 : Int) ++ List.replicate 2048 (0 : Int) ++
        List.replicate 2048 (1000 : Int)⟩, none) := by
    rw [processFrame_speech_append defaultConfig
      ⟨true, some 10, List.replicate 2048 (1000 : Int) ++ List.replicate 2048 (0 : Int)⟩
      (spFrame 2000) rfl (detectSilence_sp 2000) hm3]
    rfl
  have hne4 : (List.replicate 2048 (1000 : Int) ++ List.replicate 2048 (0 : Int) ++
      List.replicate 2048 (1000 : Int)) ++ (silFrame 2001).samples ≠ [] := by
    refine List.length_pos.mp ?_
    simp only [silFrame, List.length_append, List.length_replicate]
    decide
  have h4 : processFrame defaultConfig
      ⟨true, some 10, List.replicate 2048 (1000 : Int) ++ List.replicate 2048 (0 : Int) ++
        List.replicate 2048 (1000 : Int)⟩ (silFrame 2001) =
      (⟨false, some 10, []⟩,
       some (.silenceTimeout,
         List.replicate 2048 (1000 : Int) ++ List.replicate 2048 (0 : Int) ++
           List.replicate 2048 (1000 : Int) ++ List.replicate 2048 (0 : Int))) := by
    rw [processFrame_silent_timeout defaultConfig
      ⟨true, some 10, List.replicate 2048 (1000 : Int) ++ List.replicate 2048 (0 : Int) ++
        List.replicate 2048 (1000 : Int)⟩ (silFrame 2001) 10 rfl
      (detectSilence_sil 2001) rfl (by decide) (by decide) hne4]
    rfl
  refine ⟨?_, ?_, detectSilence_sp 2000, by decide, by decide⟩
  · simp only [processFrames, h1, h2, h3, Option.toList_none, List.nil_append,
      List.append_nil]
  · simp only [processFrames, h1, h2, h3, h4, Option.toList_none, Option.toList_some,
      List.nil_append, List.append_nil, List.map_cons, List.map_nil]

/-- C3 amended: while Capturing, the silence timer starts at the first
silent frame after the timer was last unset and is never reset by a
speech frame; finalization with reason silence-timeout happens at a
silent frame exactly when that frame's time exceeds the timer origin by
more than the configured silence duration.  In particular a silent
frame that itself starts the timer can never finalize (elapsed silence
0), but a single silent frame arriving after resumed speech can, since
the timer keeps its old origin. -/
theorem C3_amended_silence_timer (cfg : Config) (st : PState) (fr : TimedFrame) :
    (st.speaking = true → st.silenceStart = none →
      detectSilence cfg fr.samples = true →
      processFrame cfg st fr = (⟨true, some fr.time, st.audioChunk ++ fr.samples⟩, none)) ∧
    (∀ s : Nat, st.speaking = true → st.silenceStart = some s → s ≠ 0 →
      detectSilence cfg fr.samples = true → fr.samples ≠ [] →
      ((processFrame cfg st fr).2 ≠ none ↔ fr.time - s > cfg.silenceDurationMs)) ∧
    (st.speaking = true → detectSilence cfg fr.samples = false →
      (processFrame cfg st fr).1.silenceStart = st.silenceStart) := by
  refine ⟨fun hsp hnone hs => processFrame_silent_timer_set cfg st fr hsp hs hnone,
    fun s hsp hss hs0 hs hfs => ?_, fun hsp hs => ?_⟩
  · have hne : st.audioChunk ++ fr.samples ≠ [] := by
      intro hnil
      exact hfs (List.append_eq_nil.mp hnil).2
    by_cases hgt : fr.time - s > cfg.silenceDurationMs
    · rw [processFrame_silent_timeout cfg st fr s hsp hs hss hs0 hgt hne]
      simp [hgt]
    · rw [processFrame_silent_wait cfg st fr s hsp hs hss hs0 hgt]
      simp [hgt]
  · cases hm : maxChunkHit cfg (st.audioChunk ++ fr.samples) with
    | false => rw [processFrame_speech_append cfg st fr hsp hs hm]
    | true => rw [processFrame_speech_cut cfg st fr hsp hs hm]

/-- C3 amended witness: concrete instances of the three clauses — the
timer-setting silent frame does not finalize; a silent frame with a
running timer from 3 ms finalizes at 2000 ms; a speech frame leaves the
timer untouched. -/
theorem C3_amended_silence_timer_witness :
    processFrame defaultConfig ⟨true, none, []⟩ ⟨5, [0]⟩ = (⟨true, some 5, [0]⟩, none) ∧
    (processFrame defaultConfig ⟨true, some 3, []⟩ ⟨2000, [0]⟩).2 ≠ none ∧
    (processFrame defaultConfig ⟨true, some 7, []⟩ ⟨9, [600]⟩).1.silenceStart = some 7 := by
  refine ⟨?_, ?_, ?_⟩
  · have h := (C3_amended_silence_timer defaultConfig ⟨true, none, []⟩ ⟨5, [0]⟩).1
      rfl rfl (by decide)
    exact h
  · exact ((C3_amended_silence_timer defaultConfig ⟨true, some 3, []⟩ ⟨2000, [0]⟩).2.1
      3 rfl rfl (by decide) (by decide) (by decide)).mpr (by decide)
  · exact (C3_amended_silence_timer defaultConfig ⟨true, some 7, []⟩ ⟨9, [600]⟩).2.2
      rfl (by decide)

/-- Unfolding equation for processFrames on nil, stated so rewriting
does not force evaluation of literal frame lists. -/
theorem processFrames_nil (cfg : Config) (st : PState) :
    processFrames cfg st [] = (st, []) := rfl

/-- Unfolding equation for processFrames on cons, stated so rewriting
does not force evaluation of literal frame lists. -/
theorem processFrames_cons (cfg : Config) (st : PState) (fr : TimedFrame)
    (rest : List TimedFrame) :
    processFrames cfg st (fr :: rest) =
      ((processFrames cfg (processFrame cfg st fr).1 rest).1,
       (processFrame cfg st fr).2.toList ++
         (processFrames cfg (processFrame cfg st fr).1 rest).2) := rfl

/-- Composition rule: a processFrames run over fr :: rest is the frame
step followed by the run over rest. -/
theorem processFrames_cons_eq (cfg : Config) (st : PState) (fr : TimedFrame)
    (rest : List TimedFrame) (st1 st2 : PState) (out1 : Option (Reason × List Int))
    (outs outs2 : List (Reason × List Int))
    (h1 : processFrame cfg st fr = (st1, out1))
    (h2 : processFrames cfg st1 rest = (st2, outs))
    (h3 : out1.toList ++ outs = outs2) :
    processFrames cfg st (fr :: rest) = (st2, outs2) := by
  subst h3
  simp [processFrames, h1, h2]

/-- Composition rule: a processFrames run over xs ++ ys is the run over
xs followed by the run over ys. -/
theorem processFrames_append_eq (cfg : Config) (st : PState)
    (xs ys : List TimedFrame) (st1 st2 : PState)
    (outs1 outs2 outs3 : List (Reason × List Int))
    (h1 : processFrames cfg st xs = (st1, outs1))
    (h2 : processFrames cfg st1 ys = (st2, outs2))
    (h3 : outs1 ++ outs2 = outs3) :
    processFrames cfg st (xs ++ ys) = (st2, outs3) := by
  subst h3
  rw [processFrames_append, h1]
  simp [h2, h1]

/-- Iterating speech frames while Capturing, below the max size: each
frame is appended and nothing is emitted as long as the size guard
stays below the default 96000000 (= 1000 * chunk byte length bound). -/
theorem run_speech_frames (n : Nat) :
    ∀ L : Nat, 1000 * (2 * (L + 2048 * n)) < 96000000 →
      processFrames defaultConfig ⟨true, none, List.replicate L (1000 : Int)⟩
          (List.replicate n (spFrame 0)) =
        (⟨true, none, List.replicate (L + 2048 * n) (1000 : Int)⟩, []) := by
  induction n with
  | zero => intro L h; simp [processFrames]
  | succ n ih =>
    intro L h
    rw [List.replicate_succ]
    have hm : maxChunkHit defaultConfig
        (List.replicate L (1000 : Int) ++ (spFrame 0).samples) = false := by
      simp only [spFrame, maxChunkHit, List.length_append, List.length_replicate,
        defaultConfig, decide_eq_false_iff_not]
      omega
    have hstep : processFrame defaultConfig ⟨true, none, List.replicate L (1000 : Int)⟩
        (spFrame 0) =
        (⟨true, none, List.replicate (L + 2048) (1000 : Int)⟩, none) := by
      rw [processFrame_speech_append defaultConfig
        ⟨true, none, List.replicate L (1000 : Int)⟩ (spFrame 0) rfl
        (detectSilence_sp 0) hm]
      rw [show (spFrame 0).samples = List.replicate 2048 (1000 : Int) from rfl,
        ← List.replicate_add]
    simp only [processFrames, hstep, Option.toList_none, List.nil_append]
    have h2 : 1000 * (2 * ((L + 2048) + 2048 * n)) < 96000000 := by omega
    rw [ih (L + 2048) h2]
    have h3 : L + 2048 + 2048 * n = L + 2048 * (n + 1) := by ring
    rw [h3]

/-- C4 counterexample: 24 consecutive speech frames under the default
configuration emit exactly one utterance, cut by the max-size check,
whose byte length is 98304 — strictly above the claimed bound
sampleRate * channels * 2 * chunkDurationMs / 1000 = 96000.  (The cut
fires only once the appended chunk has reached the bound, so the
emitted utterance overshoots it by part of a frame.) -/
theorem C4_counterexample :
    (transformAll defaultConfig (List.replicate 24 (spFrame 0))).2 =
      [(Reason.maxDuration, List.replicate 49152 (1000 : Int))] ∧
    ¬ (2 * (List.replicate 49152 (1000 : Int)).length ≤
        defaultConfig.sampleRate * defaultConfig.channels * 2 *
        defaultConfig.chunkDurationMs / 1000) := by
  have h0 : processFrame defaultConfig initPState (spFrame 0) =
      (⟨true, none, List.replicate 2048 (1000 : Int)⟩, none) := by
    rw [processFrame_speech_start defaultConfig initPState (spFrame 0) rfl
      (detectSilence_sp 0)]
    rfl
  have hm24 : maxChunkHit defaultConfig
      (List.replicate (2048 + 2048 * 22) (1000 : Int) ++ (spFrame 0).samples) = true := by
    rw [show (spFrame 0).samples = List.replicate 2048 (1000 : Int) from rfl,
      ← List.replicate_add]
    simp only [maxChunkHit, List.length_replicate, defaultConfig, decide_eq_true_eq]
    omega
  have hlast : processFrame defaultConfig
      ⟨true, none, List.replicate (2048 + 2048 * 22) (1000 : Int)⟩ (spFrame 0) =
      (⟨true, none, []⟩, some (.maxDuration, List.replicate 49152 (1000 : Int))) := by
    rw [processFrame_speech_cut defaultConfig
      ⟨true, none, List.replicate (2048 + 2048 * 22) (1000 : Int)⟩ (spFrame 0) rfl
      (detectSilence_sp 0) hm24]
    rw [show (spFrame 0).samples = List.replicate 2048 (1000 : Int) from rfl,
      ← List.replicate_add]
  have e1 : processFrames defaultConfig ⟨true, none, List.replicate 2048 (1000 : Int)⟩
      (List.replicate 22 (spFrame 0)) =
      (⟨true, none, List.replicate (2048 + 2048 * 22) (1000 : Int)⟩, []) :=
    run_speech_frames 22 2048 (by norm_num)
  have e2 : processFrames defaultConfig
      ⟨true, none, List.replicate (2048 + 2048 * 22) (1000 : Int)⟩ [spFrame 0] =
      (⟨true, none, []⟩, [(Reason.maxDuration, List.replicate 49152 (1000 : Int))]) :=
    processFrames_cons_eq defaultConfig _ (spFrame 0) [] _ _ _ _ _ hlast
      (processFrames_nil defaultConfig _) rfl
  have e3 : processFrames defaultConfig ⟨true, none, List.replicate 2048 (1000 : Int)⟩
      (List.replicate 22 (spFrame 0) ++ [spFrame 0]) =
      (⟨true, none, []⟩, [(Reason.maxDuration, List.replicate 49152 (1000 : Int))]) :=
    processFrames_append_eq defaultConfig _ _ _ _ _ _ _ _ e1 e2 rfl
  have hrun : processFrames defaultConfig initPState (List.replicate 24 (spFrame 0)) =
      (⟨true, none, []⟩, [(Reason.maxDuration, List.replicate 49152 (1000 : Int))]) := by
    rw [show List.replicate 24 (spFrame 0) = spFrame 0 :: List.replicate 23 (spFrame 0)
      from rfl,
      show List.replicate 23 (spFrame 0) = List.replicate 22 (spFrame 0) ++ [spFrame 0]
      from List.replicate_succ' 22 (spFrame 0)]
    exact processFrames_cons_eq defaultConfig initPState (spFrame 0) _ _ _ _ _ _ h0 e3 rfl
  have ht : transformAll defaultConfig (List.replicate 24 (spFrame 0)) =
      (⟨true, none, []⟩, [(Reason.maxDuration, List.replicate 49152 (1000 : Int))]) := by
    unfold transformAll
    rw [hrun]
    rfl
  refine ⟨(congrArg Prod.snd ht).trans rfl, ?_⟩
  rw [List.length_replicate]
  decide

/-- Invariant run lemma for pure-speech frame sequences under the
default configuration: 2048-sample speech frames keep the buffered
chunk strictly below 96000 bytes between emissions, every emitted chunk
stays below 96000 + 4096 bytes, and no sample is lost or duplicated
(the emitted chunks followed by the residual buffer are exactly the
input samples in order). -/
theorem speech_run_inv (frames : List TimedFrame) :
    ∀ st : PState,
    (∀ fr ∈ frames, detectSilence defaultConfig fr.samples = false ∧
      fr.samples.length = 2048) →
    (st.speaking = false → st.audioChunk = []) →
    2 * st.audioChunk.length < 96000 →
    (∀ out ∈ (processFrames defaultConfig st frames).2, 2 * out.2.length < 96000 + 4096) ∧
    2 * (processFrames defaultConfig st frames).1.audioChunk.length < 96000 ∧
    ((processFrames defaultConfig st frames).2.map Prod.snd).flatten ++
        (processFrames defaultConfig st frames).1.audioChunk =
      st.audioChunk ++ (frames.map TimedFrame.samples).flatten := by
  induction frames with
  | nil =>
    intro st h hidle hlen
    refine ⟨by simp [processFrames], by simpa [processFrames] using hlen,
      by simp [processFrames]⟩
  | cons fr rest ih =>
    intro st h hidle hlen
    obtain ⟨hfs, hfl⟩ := h fr (by simp)
    have hrest : ∀ f ∈ rest, detectSilence defaultConfig f.samples = false ∧
        f.samples.length = 2048 := fun f hf => h f (by simp [hf])
    cases hb : st.speaking with
    | false =>
      have hst : processFrame defaultConfig st fr =
          (⟨true, none, st.audioChunk ++ fr.samples⟩, none) :=
        processFrame_speech_start _ _ _ hb hfs
      have hchunk : st.audioChunk = [] := hidle hb
      have hlen1 : 2 * (st.audioChunk ++ fr.samples).length < 96000 := by
        rw [hchunk]
        simp [hfl]
      have hih := ih ⟨true, none, st.audioChunk ++ fr.samples⟩ hrest
        (by intro hx; simp at hx) (by simpa using hlen1)
      have hrun : processFrames defaultConfig st (fr :: rest) =
          processFrames defaultConfig ⟨true, none, st.audioChunk ++ fr.samples⟩ rest := by
        simp [processFrames, hst]
      rw [hrun]
      obtain ⟨hout, hlen2, hjoin⟩ := hih
      refine ⟨hout, hlen2, ?_⟩
      rw [hjoin, hchunk]
      simp [List.append_assoc]
    | true =>
      cases hm : maxChunkHit defaultConfig (st.audioChunk ++ fr.samples) with
      | false =>
        have hst := processFrame_speech_append _ _ _ hb hfs hm
        have hlen1 : 2 * (st.audioChunk ++ fr.samples).length < 96000 := by
          simp only [maxChunkHit, decide_eq_false_iff_not, List.length_append,
            defaultConfig] at hm
          simp only [List.length_append, hfl]
          omega
        have hih := ih ⟨true, st.silenceStart, st.audioChunk ++ fr.samples⟩ hrest
          (by intro hx; simp at hx) (by simpa using hlen1)
        have hrun : processFrames defaultConfig st (fr :: rest) =
            processFrames defaultConfig
              ⟨true, st.silenceStart, st.audioChunk ++ fr.samples⟩ rest := by
          simp [processFrames, hst]
        rw [hrun]
        obtain ⟨hout, hlen2, hjoin⟩ := hih
        refine ⟨hout, hlen2, ?_⟩
        rw [hjoin]
        simp [List.append_assoc]
      | true =>
        have hst := processFrame_speech_cut _ _ _ hb hfs hm
        have hemit : 2 * (st.audioChunk ++ fr.samples).length < 96000 + 4096 := by
          simp only [List.length_append, hfl]
          omega
        have hih := ih ⟨true, st.silenceStart, []⟩ hrest (by intro hx; simp at hx)
          (by simp)
        have hrun : processFrames defaultConfig st (fr :: rest) =
            ((processFrames defaultConfig ⟨true, st.silenceStart, []⟩ rest).1,
             (Reason.maxDuration, st.audioChunk ++ fr.samples) ::
               (processFrames defaultConfig ⟨true, st.silenceStart, []⟩ rest).2) := by
          simp [processFrames, hst]
        rw [hrun]
        obtain ⟨hout, hlen2, hjoin⟩ := hih
        refine ⟨?_, hlen2, ?_⟩
        · intro out hout2
          rcases List.mem_cons.mp hout2 with rfl | hmem
          · simpa using hemit
          · exact hout out hmem
        · simp only [List.map_cons, List.flatten_cons]
          rw [List.append_assoc, hjoin]
          simp [List.append_assoc]

/-- The flush output carries exactly the residual buffer. -/
theorem flushChunk_flatten (st : PState) :
    ((flushChunk st).map Prod.snd).flatten = st.audioChunk := by
  unfold flushChunk
  split
  · simp
  · rename_i hc
    simp at hc
    simp [hc]

/-- C4 amended: for every continuous-speech input of sliced 2048-sample
frames under the default configuration, every emitted utterance
(including the flush) has byte length strictly below chunkSize +
bufferSize = 96000 + 4096 — the max-size cut fires only after the
append, so an utterance may exceed chunkSize = 96000 by up to one frame
— and every sample is contained in exactly one emitted utterance (the
concatenation of the outputs equals the concatenation of the input
frames: no loss or duplication at split points). -/
theorem C4_amended_bound_and_conservation (frames : List TimedFrame)
    (h : ∀ fr ∈ frames, detectSilence defaultConfig fr.samples = false ∧
      fr.samples.length = 2048) :
    (∀ out ∈ (transformAll defaultConfig frames).2, 2 * out.2.length < 96000 + 4096) ∧
    ((transformAll defaultConfig frames).2.map Prod.snd).flatten =
      (frames.map TimedFrame.samples).flatten := by
  obtain ⟨hout, hlen, hjoin⟩ := speech_run_inv frames initPState h (fun _ => rfl)
    (by simp [initPState])
  constructor
  · intro out hmem
    simp only [transformAll] at hmem
    rcases List.mem_append.mp hmem with h1 | h2
    · exact hout out h1
    · revert h2
      unfold flushChunk
      split
      · intro h2
        simp only [List.mem_singleton] at h2
        subst h2
        simp only
        omega
      · intro h2
        simp at h2
  · simp only [transformAll, List.map_append, List.flatten_append, flushChunk_flatten]
    rw [hjoin]
    simp [initPState]

/-- C4 amended witness: a single speech frame is buffered and flushed;
its byte length 4096 is below the bound and the output samples are
exactly the input samples. -/
theorem C4_amended_bound_and_conservation_witness :
    (∀ out ∈ (transformAll defaultConfig [spFrame 0]).2, 2 * out.2.length < 96000 + 4096) ∧
    ((transformAll defaultConfig [spFrame 0]).2.map Prod.snd).flatten =
      ([spFrame 0].map TimedFrame.samples).flatten := by
  apply C4_amended_bound_and_conservation
  intro fr hfr
  simp only [List.mem_cons, List.not_mem_nil, or_false] at hfr
  rw [hfr]
  exact ⟨detectSilence_sp 0,
    by rw [show (spFrame 0).samples = List.replicate 2048 (1000 : Int) from rfl,
      List.length_replicate]⟩
